import Mathlib

/-!
Verification of the streaming DEFLATE decoder in
`src/non_blocking/deflate/decode.rs` (crate `libflate`).

The decoder state and the block/symbol processing of `Decoder::read`,
`Decoder::read_non_compressed_block`, `Decoder::read_compressed_block` and
`Decoder::truncate_old_buffer` are embedded as pure Lean functions over a
`Decoder` record.  The bit reader and the Huffman symbol codec live in other
modules of the crate (not part of this excerpt); the compressed input is
therefore represented at the granularity the decoder itself works at: a list
of blocks, where a Huffman-coded block carries the list of symbols its codec
yields and a stored block carries its LEN/NLEN header fields and payload
bytes.  Bytes are `Nat` values (conceptually `u8`), 16-bit header fields are
`Nat` values (conceptually `u16`).
-/

deriving instance DecidableEq for Except

namespace Libflate

/-- Modelled from the spec: `lz77::MAX_DISTANCE` (the module `lz77` is not in
the excerpt); the spec fixes the maximum back-reference distance at 32768. -/
def MAX_DISTANCE : Nat := 32768

/-- Bitwise ones complement of a 16-bit value (Rust `!len` on `u16`). -/
def bnot16 (x : Nat) : Nat := 65535 - x % 65536

/-- The three-symbol alphabet produced by the symbol codec
(`deflate::symbol::Symbol` in the crate). -/
inductive Symbol where
  | literal (b : Nat) : Symbol
  | share (length distance : Nat) : Symbol
  | endOfBlock : Symbol
deriving DecidableEq, Repr

/-- Errors surfaced by the decoder: `invalidData` models
`io::ErrorKind::InvalidData` (format errors), `unexpectedEof` models an I/O
failure from the underlying byte source (e.g. `read_bit`/`read_exact` hitting
end of input). -/
inductive DecodeError where
  | invalidData (msg : String) : DecodeError
  | unexpectedEof : DecodeError
deriving DecidableEq, Repr

/-- Modelled from the spec: `util::ptr_copy` (module `util` is not in the
excerpt).  The spec requires the copy to proceed byte-by-byte in forward
order when `length > distance`, so that newly written bytes serve as sources
for later bytes, and allows a bulk copy otherwise (which has the same
functional result because the regions are then disjoint).  Each step appends
the byte sitting `distance` positions before the current end of the buffer,
exactly the forward byte-by-byte semantics of
`self.buffer[old_len + i] = self.buffer[old_len + i - distance]` for
`i = 0, 1, ...`. -/
def shareExtend (buffer : List Nat) (distance : Nat) : Nat → List Nat
  | 0 => buffer
  | Nat.succ n => shareExtend (buffer ++ [buffer.getD (buffer.length - distance) 0]) distance n

/-- The symbol loop of `Decoder::read_compressed_block` (decode.rs lines
57-91), with the Huffman codec abstracted to the list of symbols it yields.
Returns the loop result together with the buffer as it stands when the loop
exits (the Rust method mutates `self.buffer` in place, so on error the bytes
appended by earlier symbols persist).  An exhausted symbol list models
`check_last_error` reporting a read failure. -/
def readCompressedBlockCore (buffer : List Nat) : List Symbol → Except DecodeError Unit × List Nat
  | [] => (Except.error DecodeError.unexpectedEof, buffer)
  | Symbol.literal b :: rest => readCompressedBlockCore (buffer ++ [b]) rest
  | Symbol.share len dist :: rest =>
    if buffer.length < dist then
      (Except.error (DecodeError.invalidData
        ("Too long backword reference: buffer.len=" ++ toString buffer.length
          ++ ", distance=" ++ toString dist)), buffer)
    else
      readCompressedBlockCore (shareExtend buffer dist len) rest
  | Symbol.endOfBlock :: _ => (Except.ok (), buffer)

/-- The body of `Decoder::read_non_compressed_block` (decode.rs lines 32-51)
after the byte realignment and the two little-endian `u16` reads, which are
performed by the external bit reader: `len` and `nlen` are the header fields
and `payload` the raw bytes following them in the source.  The complement
check precedes any touch of the payload; on success exactly `len` payload
bytes are appended unmodified. -/
def readNonCompressedBlock (buffer : List Nat) (len nlen : Nat) (payload : List Nat) :
    Except DecodeError Unit × List Nat :=
  if bnot16 len ≠ nlen then
    (Except.error (DecodeError.invalidData
      ("LEN=" ++ toString len ++ " is not the ones complement of NLEN=" ++ toString nlen)),
      buffer)
  else if payload.length < len then
    (Except.error DecodeError.unexpectedEof, buffer)
  else
    (Except.ok (), buffer ++ payload.take len)

/-- One block of the compressed stream, as the decoder sees it after the
2-bit `btype` field: a stored block with its LEN/NLEN header and payload, a
fixed- or dynamic-Huffman block with the symbols its codec yields, or the
reserved type 0b11. -/
inductive Block where
  | stored (len nlen : Nat) (payload : List Nat) : Block
  | fixedHuffman (symbols : List Symbol) : Block
  | dynamicHuffman (symbols : List Symbol) : Block
  | reserved : Block
deriving DecidableEq, Repr

/-- Dispatch on `btype` inside `Decoder::read` (decode.rs lines 124-141):
stored and Huffman blocks run their body against the current buffer; the
reserved type fails immediately with the format error of line 137, touching
nothing. -/
def decodeBlockBody (buffer : List Nat) : Block → Except DecodeError Unit × List Nat
  | Block.stored len nlen payload => readNonCompressedBlock buffer len nlen payload
  | Block.fixedHuffman syms => readCompressedBlockCore buffer syms
  | Block.dynamicHuffman syms => readCompressedBlockCore buffer syms
  | Block.reserved =>
    (Except.error (DecodeError.invalidData "btype 0x11 of DEFLATE is reserved(error) value"),
      buffer)

/-- The `Decoder` struct (decode.rs lines 13-19): the remaining input (the
bit reader and its source, at block granularity, each block paired with its
`bfinal` bit), the output buffer holding the decompressed history, the
delivered offset, and the end-of-stream flag. -/
structure Decoder where
  input : List (Bool × Block)
  buffer : List Nat
  offset : Nat
  eos : Bool
deriving DecidableEq, Repr

/-- `Decoder::truncate_old_buffer` (decode.rs lines 94-105): when the buffer
exceeds `4 * MAX_DISTANCE` bytes, keep only the most recent `MAX_DISTANCE`
bytes and set the delivered offset to the new length. -/
def truncateOld (buffer : List Nat) (offset : Nat) : List Nat × Nat :=
  if MAX_DISTANCE * 4 < buffer.length then
    (buffer.drop (buffer.length - MAX_DISTANCE), MAX_DISTANCE)
  else
    (buffer, offset)

/-- `<Decoder as Read>::read` (decode.rs lines 111-143), with the caller's
buffer abstracted to its capacity `bufLen` and the written bytes returned as
a list (whose length is the returned count).  Mirrors the Rust control flow:
deliver pending bytes if any; report end of stream; otherwise read the next
block header (consume the head of `input`, set `eos` from `bfinal`), run
`truncate_old_buffer`, decode the block body, and recurse.  The post-call
decoder state is returned alongside the result, also on error (the Rust
method mutates `self` in place). -/
def readLoop (bufLen : Nat) (input : List (Bool × Block)) (buffer : List Nat) (offset : Nat)
    (eos : Bool) : Except DecodeError (List Nat) × Decoder :=
  if offset < buffer.length then
    (Except.ok ((buffer.drop offset).take (min bufLen (buffer.length - offset))),
      ⟨input, buffer, offset + min bufLen (buffer.length - offset), eos⟩)
  else if eos then
    (Except.ok [], ⟨input, buffer, offset, eos⟩)
  else
    match input with
    | [] => (Except.error DecodeError.unexpectedEof, ⟨[], buffer, offset, eos⟩)
    | (bfinal, blk) :: rest =>
      match decodeBlockBody (truncateOld buffer offset).1 blk with
      | (Except.ok _, newBuf) => readLoop bufLen rest newBuf (truncateOld buffer offset).2 bfinal
      | (Except.error e, newBuf) =>
        (Except.error e, ⟨rest, newBuf, (truncateOld buffer offset).2, bfinal⟩)

/-- Entry point: `read` on a decoder state. -/
def Decoder.read (d : Decoder) (bufLen : Nat) : Except DecodeError (List Nat) × Decoder :=
  readLoop bufLen d.input d.buffer d.offset d.eos

/-- True end of stream: the final block has been read and every decoded byte
has been delivered. -/
def atEos (d : Decoder) : Prop := d.eos = true ∧ d.buffer.length ≤ d.offset

instance (d : Decoder) : Decidable (atEos d) := by
  unfold atEos; infer_instance

/-! ## Helper lemmas about the LZ77 forward copy -/

theorem shareExtend_exists_append (dist : Nat) :
    ∀ (n : Nat) (buf : List Nat), ∃ t, shareExtend buf dist n = buf ++ t := by
  intro n
  induction n with
  | zero => intro buf; exact ⟨[], by simp [shareExtend]⟩
  | succ n ih =>
    intro buf
    obtain ⟨t, ht⟩ := ih (buf ++ [buf.getD (buf.length - dist) 0])
    refine ⟨buf.getD (buf.length - dist) 0 :: t, ?_⟩
    rw [show shareExtend buf dist (n + 1)
        = shareExtend (buf ++ [buf.getD (buf.length - dist) 0]) dist n from rfl, ht]
    simp

theorem shareExtend_length (dist : Nat) :
    ∀ (n : Nat) (buf : List Nat), (shareExtend buf dist n).length = buf.length + n := by
  intro n
  induction n with
  | zero => intro buf; simp [shareExtend]
  | succ n ih =>
    intro buf
    rw [show shareExtend buf dist (n + 1)
        = shareExtend (buf ++ [buf.getD (buf.length - dist) 0]) dist n from rfl, ih]
    simp only [List.length_append, List.length_singleton]
    omega

theorem shareExtend_getD (dist : Nat) (hpos : 0 < dist) :
    ∀ (n : Nat) (buf : List Nat), dist ≤ buf.length → ∀ i, i < n →
    (shareExtend buf dist n).getD (buf.length + i) 0
      = (shareExtend buf dist n).getD (buf.length + i - dist) 0 := by
  intro n
  induction n with
  | zero => intro buf _ i hi; omega
  | succ n ih =>
    intro buf hd i hi
    rw [show shareExtend buf dist (n + 1)
        = shareExtend (buf ++ [buf.getD (buf.length - dist) 0]) dist n from rfl]
    cases i with
    | zero =>
      obtain ⟨t, ht⟩ :=
        shareExtend_exists_append dist n (buf ++ [buf.getD (buf.length - dist) 0])
      have hL : ((buf ++ [buf.getD (buf.length - dist) 0]) ++ t).getD buf.length 0
          = buf.getD (buf.length - dist) 0 := by
        rw [List.getD_append _ _ _ _
          (by simp only [List.length_append, List.length_singleton]; omega)]
        rw [List.getD_append_right _ _ _ _ (Nat.le_refl buf.length)]
        simp
      have hR : ((buf ++ [buf.getD (buf.length - dist) 0]) ++ t).getD (buf.length - dist) 0
          = buf.getD (buf.length - dist) 0 := by
        rw [List.getD_append _ _ _ _
          (by simp only [List.length_append, List.length_singleton]; omega)]
        rw [List.getD_append _ _ _ _ (by omega)]
      rw [ht, Nat.add_zero, hL, hR]
    | succ j =>
      have hd' : dist ≤ (buf ++ [buf.getD (buf.length - dist) 0]).length := by
        simp only [List.length_append, List.length_singleton]; omega
      have hstep := ih (buf ++ [buf.getD (buf.length - dist) 0]) hd' j (by omega)
      have e1 : (buf ++ [buf.getD (buf.length - dist) 0]).length + j = buf.length + (j + 1) := by
        simp only [List.length_append, List.length_singleton]; omega
      rw [e1] at hstep
      exact hstep

/-! ## Unfolding lemmas for the consumer pull loop -/

theorem readLoop_deliver (bufLen : Nat) (input : List (Bool × Block)) (buffer : List Nat)
    (offset : Nat) (eos : Bool) (h : offset < buffer.length) :
    readLoop bufLen input buffer offset eos
      = (Except.ok ((buffer.drop offset).take (min bufLen (buffer.length - offset))),
        ⟨input, buffer, offset + min bufLen (buffer.length - offset), eos⟩) := by
  unfold readLoop
  simp [h]

theorem readLoop_atEnd (bufLen : Nat) (input : List (Bool × Block)) (buffer : List Nat)
    (offset : Nat) (eos : Bool) (h1 : ¬ offset < buffer.length) (h2 : eos = true) :
    readLoop bufLen input buffer offset eos = (Except.ok [], ⟨input, buffer, offset, eos⟩) := by
  unfold readLoop
  simp [h1, h2]

theorem readLoop_noInput (bufLen : Nat) (buffer : List Nat) (offset : Nat) (eos : Bool)
    (h1 : ¬ offset < buffer.length) (h2 : eos = false) :
    readLoop bufLen [] buffer offset eos
      = (Except.error DecodeError.unexpectedEof, ⟨[], buffer, offset, eos⟩) := by
  unfold readLoop
  simp [h1, h2]

theorem readLoop_decodeOk (bufLen : Nat) (buffer : List Nat) (offset : Nat) (eos : Bool)
    (bfinal : Bool) (blk : Block) (rest : List (Bool × Block)) (u : Unit) (newBuf : List Nat)
    (h1 : ¬ offset < buffer.length) (h2 : eos = false)
    (hdec : decodeBlockBody (truncateOld buffer offset).1 blk = (Except.ok u, newBuf)) :
    readLoop bufLen ((bfinal, blk) :: rest) buffer offset eos
      = readLoop bufLen rest newBuf (truncateOld buffer offset).2 bfinal := by
  conv_lhs => unfold readLoop
  simp [h1, h2, hdec]

theorem readLoop_decodeErr (bufLen : Nat) (buffer : List Nat) (offset : Nat) (eos : Bool)
    (bfinal : Bool) (blk : Block) (rest : List (Bool × Block)) (e : DecodeError)
    (newBuf : List Nat)
    (h1 : ¬ offset < buffer.length) (h2 : eos = false)
    (hdec : decodeBlockBody (truncateOld buffer offset).1 blk = (Except.error e, newBuf)) :
    readLoop bufLen ((bfinal, blk) :: rest) buffer offset eos
      = (Except.error e, ⟨rest, newBuf, (truncateOld buffer offset).2, bfinal⟩) := by
  unfold readLoop
  simp [h1, h2, hdec]

/-- At every call site of `truncate_old_buffer` inside `read` the delivered
offset equals the buffer length (the delivery branch was not taken); under
that condition the windowing step leaves offset equal to the buffer length
again. -/
theorem truncateOld_offset_eq (buffer : List Nat) (offset : Nat) (h : offset = buffer.length) :
    (truncateOld buffer offset).2 = (truncateOld buffer offset).1.length := by
  have hM : MAX_DISTANCE = 32768 := rfl
  unfold truncateOld
  by_cases hc : MAX_DISTANCE * 4 < buffer.length
  · rw [if_pos hc]
    dsimp only
    rw [List.length_drop]
    omega
  · rw [if_neg hc]
    exact h

/-- When the caller asks for at least one byte, a successful pull that
returns zero bytes can only happen with the end-of-stream flag set and the
buffer fully delivered. -/
theorem readLoop_zero_atEos (bufLen : Nat) (hpos : 0 < bufLen) :
    ∀ (input : List (Bool × Block)) (buffer : List Nat) (offset : Nat) (eos : Bool)
      (out : List Nat) (d2 : Decoder),
      readLoop bufLen input buffer offset eos = (Except.ok out, d2) → out = [] → atEos d2 := by
  intro input
  induction input with
  | nil =>
    intro buffer offset eos out d2 hred hout
    by_cases hlt : offset < buffer.length
    · exfalso
      rw [readLoop_deliver bufLen [] buffer offset eos hlt] at hred
      have hfst := congrArg Prod.fst hred
      simp only [Except.ok.injEq] at hfst
      have hlen := congrArg List.length hfst
      rw [hout, List.length_take, List.length_drop] at hlen
      simp only [List.length_nil] at hlen
      omega
    · cases heos : eos with
      | true =>
        rw [readLoop_atEnd bufLen [] buffer offset eos hlt heos] at hred
        have hsnd := congrArg Prod.snd hred
        simp only at hsnd
        rw [← hsnd]
        exact ⟨heos, show buffer.length ≤ offset by omega⟩
      | false =>
        rw [readLoop_noInput bufLen buffer offset eos hlt heos] at hred
        have hfst := congrArg Prod.fst hred
        simp at hfst
  | cons hd rest ih =>
    intro buffer offset eos out d2 hred hout
    by_cases hlt : offset < buffer.length
    · exfalso
      rw [readLoop_deliver bufLen (hd :: rest) buffer offset eos hlt] at hred
      have hfst := congrArg Prod.fst hred
      simp only [Except.ok.injEq] at hfst
      have hlen := congrArg List.length hfst
      rw [hout, List.length_take, List.length_drop] at hlen
      simp only [List.length_nil] at hlen
      omega
    · cases heos : eos with
      | true =>
        rw [readLoop_atEnd bufLen (hd :: rest) buffer offset eos hlt heos] at hred
        have hsnd := congrArg Prod.snd hred
        simp only at hsnd
        rw [← hsnd]
        exact ⟨heos, show buffer.length ≤ offset by omega⟩
      | false =>
        obtain ⟨bf, blk⟩ := hd
        rcases hres : decodeBlockBody (truncateOld buffer offset).1 blk with ⟨r, nb⟩
        cases r with
        | ok u =>
          rw [readLoop_decodeOk bufLen buffer offset eos bf blk rest u nb hlt heos hres] at hred
          exact ih nb (truncateOld buffer offset).2 bf out d2 hred hout
        | error e =>
          rw [readLoop_decodeErr bufLen buffer offset eos bf blk rest e nb hlt heos hres] at hred
          have hfst := congrArg Prod.fst hred
          simp at hfst

/-! ## Claims -/

/-- C1: a Share symbol appends exactly `length` bytes to the buffer, the
buffer so far is preserved, and each appended byte equals the byte sitting
`distance` positions earlier in the resulting buffer (byte-by-byte forward
copy, so bytes written by the same operation serve as sources once the copy
runs past `distance`); moreover the symbol stream Literal(A), Literal(B),
Share(length 4, distance 2), EndOfBlock produces the six bytes ABABAB. -/
theorem c1_share_forward_copy (buf : List Nat) (len dist : Nat)
    (h1 : 0 < dist) (h2 : dist ≤ buf.length) :
    (∃ t, shareExtend buf dist len = buf ++ t)
    ∧ (shareExtend buf dist len).length = buf.length + len
    ∧ (∀ i, i < len →
        (shareExtend buf dist len).getD (buf.length + i) 0
          = (shareExtend buf dist len).getD (buf.length + i - dist) 0)
    ∧ readCompressedBlockCore []
        [Symbol.literal 65, Symbol.literal 66, Symbol.share 4 2, Symbol.endOfBlock]
      = (Except.ok (), [65, 66, 65, 66, 65, 66]) :=
  ⟨shareExtend_exists_append dist len buf, shareExtend_length dist len buf,
    fun i hi => shareExtend_getD dist h1 len buf h2 i hi, rfl⟩

/-- Witness for C1 at buf = [65, 66], length 4, distance 2. -/
theorem c1_share_forward_copy_witness :
    0 < 2 ∧ 2 ≤ ([65, 66] : List Nat).length
    ∧ ((∃ t, shareExtend [65, 66] 2 4 = [65, 66] ++ t)
      ∧ (shareExtend [65, 66] 2 4).length = ([65, 66] : List Nat).length + 4
      ∧ (∀ i, i < 4 →
          (shareExtend [65, 66] 2 4).getD (([65, 66] : List Nat).length + i) 0
            = (shareExtend [65, 66] 2 4).getD (([65, 66] : List Nat).length + i - 2) 0)
      ∧ readCompressedBlockCore []
          [Symbol.literal 65, Symbol.literal 66, Symbol.share 4 2, Symbol.endOfBlock]
        = (Except.ok (), [65, 66, 65, 66, 65, 66])) :=
  ⟨by decide, by decide, c1_share_forward_copy [65, 66] 4 2 (by decide) (by decide)⟩

/-- C2: a Share symbol whose distance exceeds the bytes already produced
makes the symbol loop fail with an invalid-data error, and the buffer is
exactly what it was before that symbol (no bytes appended by it). -/
theorem c2_out_of_range_share (buffer : List Nat) (len dist : Nat) (rest : List Symbol)
    (h : buffer.length < dist) :
    ∃ msg, readCompressedBlockCore buffer (Symbol.share len dist :: rest)
      = (Except.error (DecodeError.invalidData msg), buffer) :=
  ⟨"Too long backword reference: buffer.len=" ++ toString buffer.length
      ++ ", distance=" ++ toString dist,
    by simp [readCompressedBlockCore, h]⟩

/-- Witness for C2: Share with distance 10 as the very first symbol, with an
empty history. -/
theorem c2_out_of_range_share_witness :
    ([] : List Nat).length < 10
    ∧ ∃ msg, readCompressedBlockCore [] [Symbol.share 3 10]
        = (Except.error (DecodeError.invalidData msg), []) :=
  ⟨by decide, c2_out_of_range_share [] 3 10 [] (by decide)⟩

/-- C6: a stored block whose NLEN is the ones complement of LEN and whose
payload holds LEN bytes appends exactly those LEN bytes, unmodified. -/
theorem c6_stored_block (buffer : List Nat) (len nlen : Nat) (payload : List Nat)
    (h1 : nlen = bnot16 len) (h2 : payload.length = len) :
    readNonCompressedBlock buffer len nlen payload = (Except.ok (), buffer ++ payload) := by
  unfold readNonCompressedBlock
  rw [if_neg (show ¬ bnot16 len ≠ nlen by simp [h1])]
  rw [if_neg (show ¬ payload.length < len by omega)]
  rw [show payload.take len = payload from by rw [← h2]; exact List.take_length payload]

/-- Witness for C6: LEN = 5, NLEN = 0xFFFA = 65530, five payload bytes. -/
theorem c6_stored_block_witness :
    65530 = bnot16 5 ∧ ([10, 20, 30, 40, 50] : List Nat).length = 5
    ∧ readNonCompressedBlock [] 5 65530 [10, 20, 30, 40, 50]
      = (Except.ok (), [10, 20, 30, 40, 50]) :=
  ⟨by decide, by decide, c6_stored_block [] 5 65530 [10, 20, 30, 40, 50] (by decide) (by decide)⟩

/-- C7: a stored block whose NLEN is not the ones complement of LEN fails
with an invalid-data error whose message reports both values, with the
buffer untouched (the payload is never reached: the complement check comes
first in `read_non_compressed_block`). -/
theorem c7_stored_block_bad_nlen (buffer : List Nat) (len nlen : Nat) (payload : List Nat)
    (h : bnot16 len ≠ nlen) :
    readNonCompressedBlock buffer len nlen payload
      = (Except.error (DecodeError.invalidData
          ("LEN=" ++ toString len ++ " is not the ones complement of NLEN=" ++ toString nlen)),
        buffer) := by
  unfold readNonCompressedBlock
  rw [if_pos h]

/-- Witness for C7: LEN = 5, NLEN = 5 (not complemented). -/
theorem c7_stored_block_bad_nlen_witness :
    bnot16 5 ≠ 5
    ∧ readNonCompressedBlock [1] 5 5 [9, 9]
      = (Except.error (DecodeError.invalidData
          ("LEN=" ++ toString 5 ++ " is not the ones complement of NLEN=" ++ toString 5)),
        [1]) :=
  ⟨by decide, c7_stored_block_bad_nlen [1] 5 5 [9, 9] (by decide)⟩

/-- C8: once the end-of-stream flag is set and every buffered byte has been
delivered, `read` returns Ok with zero bytes and leaves the decoder state
unchanged; iterating the call any number of times leaves the state fixed. -/
theorem c8_drained_reads_zero (d : Decoder) (bufLen : Nat)
    (h1 : d.eos = true) (h2 : d.buffer.length ≤ d.offset) :
    d.read bufLen = (Except.ok [], d)
    ∧ ∀ k, (fun s : Decoder => (s.read bufLen).2)^[k] d = d := by
  have hstep : d.read bufLen = (Except.ok [], d) :=
    readLoop_atEnd bufLen d.input d.buffer d.offset d.eos (by omega) h1
  refine ⟨hstep, fun k => Function.iterate_fixed ?_ k⟩
  show (d.read bufLen).2 = d
  rw [hstep]

/-- Witness for C8 on a drained final decoder state. -/
theorem c8_drained_reads_zero_witness :
    (⟨[], [3, 4], 2, true⟩ : Decoder).eos = true
    ∧ (⟨[], [3, 4], 2, true⟩ : Decoder).buffer.length ≤ (⟨[], [3, 4], 2, true⟩ : Decoder).offset
    ∧ ((⟨[], [3, 4], 2, true⟩ : Decoder).read 7 = (Except.ok [], ⟨[], [3, 4], 2, true⟩)
      ∧ ∀ k, (fun s : Decoder => (s.read 7).2)^[k] (⟨[], [3, 4], 2, true⟩ : Decoder)
          = ⟨[], [3, 4], 2, true⟩) :=
  ⟨by decide, by decide, c8_drained_reads_zero ⟨[], [3, 4], 2, true⟩ 7 (by decide) (by decide)⟩

/-- C9: a block header with the reserved type 0b11 makes `read` fail at once
with the invalid-data error of decode.rs line 137: the header (one input
element) is consumed, the end-of-stream flag takes the header's bfinal bit,
and the buffer is exactly the output of the block-boundary windowing step —
no block body is decoded and nothing further is consumed. -/
theorem c9_reserved_block_type (bufLen : Nat) (buffer : List Nat) (offset : Nat) (bfinal : Bool)
    (rest : List (Bool × Block)) (h : offset = buffer.length) :
    Decoder.read ⟨(bfinal, Block.reserved) :: rest, buffer, offset, false⟩ bufLen
      = (Except.error (DecodeError.invalidData "btype 0x11 of DEFLATE is reserved(error) value"),
        ⟨rest, (truncateOld buffer offset).1, (truncateOld buffer offset).2, bfinal⟩) :=
  readLoop_decodeErr bufLen buffer offset false bfinal Block.reserved rest _ _
    (by omega) rfl rfl

/-- Witness for C9 on a concrete two-byte history. -/
theorem c9_reserved_block_type_witness :
    2 = ([1, 2] : List Nat).length
    ∧ Decoder.read ⟨[(true, Block.reserved)], [1, 2], 2, false⟩ 4
      = (Except.error (DecodeError.invalidData "btype 0x11 of DEFLATE is reserved(error) value"),
        ⟨[], (truncateOld [1, 2] 2).1, (truncateOld [1, 2] 2).2, true⟩) :=
  ⟨by decide, c9_reserved_block_type 4 [1, 2] 2 true [] (by decide)⟩

/-- C3: the block-boundary windowing step.  At every call site the delivered
offset equals the buffer length (delivery did not fire), and under that
condition: a buffer of at most 4 * MAX_DISTANCE bytes is left untouched
together with the offset; a longer buffer is compacted to exactly its most
recent MAX_DISTANCE bytes with the offset set to match; and the undelivered
suffix is the same before and after, so no undelivered byte is lost. -/
theorem c3_windowing (buffer : List Nat) (offset : Nat) (h : offset = buffer.length) :
    (buffer.length ≤ MAX_DISTANCE * 4 → truncateOld buffer offset = (buffer, offset))
    ∧ (MAX_DISTANCE * 4 < buffer.length →
        truncateOld buffer offset = (buffer.drop (buffer.length - MAX_DISTANCE), MAX_DISTANCE)
        ∧ (buffer.drop (buffer.length - MAX_DISTANCE)).length = MAX_DISTANCE)
    ∧ (truncateOld buffer offset).1.drop (truncateOld buffer offset).2
        = buffer.drop offset := by
  have hM : MAX_DISTANCE = 32768 := rfl
  have ht : truncateOld buffer offset
      = if MAX_DISTANCE * 4 < buffer.length then
          (buffer.drop (buffer.length - MAX_DISTANCE), MAX_DISTANCE)
        else (buffer, offset) := rfl
  by_cases hc : MAX_DISTANCE * 4 < buffer.length
  · rw [ht, if_pos hc]
    refine ⟨fun hle => by omega, fun _ => ⟨rfl, ?_⟩, ?_⟩
    · rw [List.length_drop]; omega
    · dsimp only
      rw [List.drop_drop]
      have he : buffer.length - MAX_DISTANCE + MAX_DISTANCE = offset := by omega
      rw [he]
  · rw [ht, if_neg hc]
    exact ⟨fun _ => rfl, fun hlt => absurd hlt hc, rfl⟩

/-- Witness for C3 on a buffer of 4 * MAX_DISTANCE + 1 identical bytes, all
already delivered. -/
theorem c3_windowing_witness :
    131073 = (List.replicate 131073 7).length
    ∧ (((List.replicate 131073 7 : List Nat).length ≤ MAX_DISTANCE * 4 →
          truncateOld (List.replicate 131073 7) 131073 = (List.replicate 131073 7, 131073))
      ∧ (MAX_DISTANCE * 4 < (List.replicate 131073 7 : List Nat).length →
          truncateOld (List.replicate 131073 7) 131073
            = ((List.replicate 131073 7 : List Nat).drop
                ((List.replicate 131073 7 : List Nat).length - MAX_DISTANCE), MAX_DISTANCE)
          ∧ ((List.replicate 131073 7 : List Nat).drop
              ((List.replicate 131073 7 : List Nat).length - MAX_DISTANCE)).length
            = MAX_DISTANCE)
      ∧ (truncateOld (List.replicate 131073 7) 131073).1.drop
          (truncateOld (List.replicate 131073 7) 131073).2
        = (List.replicate 131073 7 : List Nat).drop 131073) :=
  ⟨by rw [List.length_replicate],
    c3_windowing (List.replicate 131073 7) 131073 (by rw [List.length_replicate])⟩

/-- C4 counterexample: one pull can decode two blocks.  With an empty
history, an empty non-final stored block followed by a one-byte final stored
block, a single `read` call decodes both blocks (the input is fully
consumed, two elements) and returns the byte — refuting "a single pull call
never decodes more than one compressed block". -/
theorem c4_counterexample :
    (Decoder.read ⟨[(false, Block.stored 0 65535 []), (true, Block.stored 1 65534 [7])],
        [], 0, false⟩ 1).1 = Except.ok [7]
    ∧ (⟨[(false, Block.stored 0 65535 []), (true, Block.stored 1 65534 [7])],
        [], 0, false⟩ : Decoder).input.length
      - (Decoder.read ⟨[(false, Block.stored 0 65535 []), (true, Block.stored 1 65534 [7])],
          [], 0, false⟩ 1).2.input.length = 2 := by
  decide

/-- C4 as amended: when undelivered bytes remain a pull decodes nothing, and
otherwise a pull decodes exactly one block before re-entering the delivery
path provided that block decodes successfully and appends at least one byte;
a block that appends nothing causes the next block to be decoded within the
same pull (see the counterexample). -/
theorem c4_one_block_per_pull (bufLen : Nat) (buffer : List Nat) (offset : Nat) (bf : Bool)
    (blk : Block) (rest : List (Bool × Block)) (u : Unit) (newBuf : List Nat)
    (hoff : offset = buffer.length)
    (hdec : decodeBlockBody (truncateOld buffer offset).1 blk = (Except.ok u, newBuf))
    (hgrow : (truncateOld buffer offset).1.length < newBuf.length) :
    (readLoop bufLen ((bf, blk) :: rest) buffer offset false).2.input = rest
    ∧ ∀ (input2 : List (Bool × Block)) (buf2 : List Nat) (off2 : Nat) (eos2 : Bool),
        off2 < buf2.length → (readLoop bufLen input2 buf2 off2 eos2).2.input = input2 := by
  constructor
  · rw [readLoop_decodeOk bufLen buffer offset false bf blk rest u newBuf (by omega) rfl hdec]
    have h2 := truncateOld_offset_eq buffer offset hoff
    rw [readLoop_deliver bufLen rest newBuf (truncateOld buffer offset).2 bf (by omega)]
  · intro input2 buf2 off2 eos2 hlt
    rw [readLoop_deliver bufLen input2 buf2 off2 eos2 hlt]

/-- Witness for C4 as amended: a one-byte final stored block on an empty
history is decoded in one pull, and a decoder with a pending byte decodes
nothing. -/
theorem c4_one_block_per_pull_witness :
    0 = ([] : List Nat).length
    ∧ decodeBlockBody (truncateOld [] 0).1 (Block.stored 1 65534 [9]) = (Except.ok (), [9])
    ∧ (truncateOld [] 0).1.length < ([9] : List Nat).length
    ∧ ((readLoop 1 [(true, Block.stored 1 65534 [9])] [] 0 false).2.input = []
      ∧ ∀ (input2 : List (Bool × Block)) (buf2 : List Nat) (off2 : Nat) (eos2 : Bool),
          off2 < buf2.length → (readLoop 1 input2 buf2 off2 eos2).2.input = input2) :=
  ⟨by decide, by decide, by decide,
    c4_one_block_per_pull 1 [] 0 true (Block.stored 1 65534 [9]) [] () [9]
      (by decide) (by decide) (by decide)⟩

/-- C5 counterexample: a zero-length caller buffer makes `read` return a
count of zero while the stream is not at end of stream (an undelivered byte
remains and the final block has not been seen), refuting "a return of 0
occurs only at true end-of-stream". -/
theorem c5_counterexample :
    (Decoder.read ⟨[], [5], 0, false⟩ 0).1 = Except.ok []
    ∧ ¬ atEos (⟨[], [5], 0, false⟩ : Decoder)
    ∧ ¬ atEos (Decoder.read ⟨[], [5], 0, false⟩ 0).2 := by
  decide

/-- C5 as amended: the returned list is exactly what is written into the
caller's buffer (its length is the returned count): when undelivered bytes
remain the pull copies min(bufLen, available) bytes from the delivered
offset onward — a caller buffer smaller than a block's output gets a partial
read with the remainder left for later calls — and, provided the caller's
buffer holds at least one byte, a successful return of zero bytes happens
only with the end-of-stream flag set and the whole buffer delivered. -/
theorem c5_read_count (bufLen : Nat) (input : List (Bool × Block)) (buffer : List Nat)
    (offset : Nat) (eos : Bool) (hpos : 0 < bufLen) :
    (offset < buffer.length →
      readLoop bufLen input buffer offset eos
        = (Except.ok ((buffer.drop offset).take (min bufLen (buffer.length - offset))),
          ⟨input, buffer, offset + min bufLen (buffer.length - offset), eos⟩)
      ∧ ((buffer.drop offset).take (min bufLen (buffer.length - offset))).length
        = min bufLen (buffer.length - offset))
    ∧ ∀ (out : List Nat) (d2 : Decoder),
        readLoop bufLen input buffer offset eos = (Except.ok out, d2) → out = [] → atEos d2 := by
  constructor
  · intro hlt
    refine ⟨readLoop_deliver bufLen input buffer offset eos hlt, ?_⟩
    rw [List.length_take, List.length_drop]
    omega
  · exact readLoop_zero_atEos bufLen hpos input buffer offset eos

/-- Witness for C5 as amended: a two-byte pending buffer read with a
one-byte caller buffer. -/
theorem c5_read_count_witness :
    0 < 1
    ∧ ((0 < ([8, 9] : List Nat).length →
        readLoop 1 [] [8, 9] 0 false
          = (Except.ok ((([8, 9] : List Nat).drop 0).take (min 1 (([8, 9] : List Nat).length - 0))),
            ⟨[], [8, 9], 0 + min 1 (([8, 9] : List Nat).length - 0), false⟩)
        ∧ ((([8, 9] : List Nat).drop 0).take (min 1 (([8, 9] : List Nat).length - 0))).length
          = min 1 (([8, 9] : List Nat).length - 0))
      ∧ ∀ (out : List Nat) (d2 : Decoder),
          readLoop 1 [] [8, 9] 0 false = (Except.ok out, d2) → out = [] → atEos d2) :=
  ⟨by decide, c5_read_count 1 [] [8, 9] 0 false (by decide)⟩

/-- C10: `read` stores the bfinal bit into the end-of-stream flag before the
block body runs, so when the body of a final block fails the returned state
still has the flag set; once that decoder is drained every later `read`
returns Ok with zero bytes and no error, leaving the state fixed. -/
theorem c10_eos_set_before_body (bufLen : Nat) (buffer : List Nat) (offset : Nat) (blk : Block)
    (rest : List (Bool × Block)) (e : DecodeError) (newBuf : List Nat)
    (hoff : offset = buffer.length)
    (hdec : decodeBlockBody (truncateOld buffer offset).1 blk = (Except.error e, newBuf)) :
    Decoder.read ⟨(true, blk) :: rest, buffer, offset, false⟩ bufLen
      = (Except.error e, ⟨rest, newBuf, (truncateOld buffer offset).2, true⟩)
    ∧ ∀ m, newBuf.length ≤ (truncateOld buffer offset).2 →
        Decoder.read ⟨rest, newBuf, (truncateOld buffer offset).2, true⟩ m
          = (Except.ok [], ⟨rest, newBuf, (truncateOld buffer offset).2, true⟩) := by
  constructor
  · exact readLoop_decodeErr bufLen buffer offset false true blk rest e newBuf (by omega) rfl hdec
  · intro m hle
    exact readLoop_atEnd m rest newBuf (truncateOld buffer offset).2 true (by omega) rfl

/-- Witness for C10: a final block of reserved type fails while setting the
end-of-stream flag; the drained decoder then reads zero bytes forever. -/
theorem c10_eos_set_before_body_witness :
    0 = ([] : List Nat).length
    ∧ decodeBlockBody (truncateOld [] 0).1 Block.reserved
      = (Except.error (DecodeError.invalidData "btype 0x11 of DEFLATE is reserved(error) value"),
        [])
    ∧ (Decoder.read ⟨[(true, Block.reserved)], [], 0, false⟩ 3
        = (Except.error (DecodeError.invalidData "btype 0x11 of DEFLATE is reserved(error) value"),
          ⟨[], [], (truncateOld [] 0).2, true⟩)
      ∧ ∀ m, ([] : List Nat).length ≤ (truncateOld [] 0).2 →
          Decoder.read ⟨[], [], (truncateOld [] 0).2, true⟩ m
            = (Except.ok [], ⟨[], [], (truncateOld [] 0).2, true⟩)) :=
  ⟨rfl, rfl,
    c10_eos_set_before_body 3 [] 0 Block.reserved []
      (DecodeError.invalidData "btype 0x11 of DEFLATE is reserved(error) value") []
      rfl rfl⟩

end Libflate
